import Mathlib

/-!
Verification of the OCA (Oracle Code Assist) OAuth authentication core:
a shallow embedding of the callback listener (`OcaAuthHandler.ts`), the
auth status subscriber (`auth_oca_subscription.go`), the sign-in
orchestrator (`auth_oca.go`), and the request-id generator (`utils.ts`),
with theorems about the behaviour each component's specification claims.
-/

namespace OcaAuth

/-! ## Callback listener state (`OcaAuthHandler.ts`)

The mutable fields of the `OcaAuthHandler` class.  The Node `Server`
object and the `NodeJS.Timeout` handle are modelled as `Option Unit`
(present or absent); `serverCreationPromise` likewise records whether a
creation is in flight. -/

structure HandlerState where
  port : Nat
  server : Option Unit
  serverCreationPromise : Option Unit
  timeoutId : Option Unit
  enabled : Bool
  ports : List Nat
  deriving Repr, DecidableEq

/-- `updateTimeout()`: clears any pending idle timer and arms a fresh one
(the timer handle is modelled as present/absent). -/
def updateTimeout (s : HandlerState) : HandlerState :=
  { s with timeoutId := some () }

/-- `stop()`: cancels the idle timer, closes the server if open, clears the
in-flight creation promise and resets the recorded port to 0. -/
def stop (s : HandlerState) : HandlerState :=
  { s with timeoutId := none, server := none, serverCreationPromise := none, port := 0 }

/-- The URI template `http://localhost:${this.port}`. -/
def mkUri (p : Nat) : String := "http://localhost:" ++ toString p

/-- The action `getCallbackUri` takes after its synchronous entry section:
return the URI at once (server already running), await an in-flight
creation, or start a new creation and await it. -/
inductive CallAction where
  | returnUri (uri : String)
  | joinCreation
  | startCreation
  deriving Repr, DecidableEq

/-- `getCallbackUri()`, synchronous entry section: the enabled guard, then
the `server` / `serverCreationPromise` dispatch.  Starting a creation
installs the in-flight promise synchronously (the assignment
`this.serverCreationPromise = this.createServer()` happens before any
await); a running server has its idle timer re-armed and its URI
returned. -/
def getCallbackUri (s : HandlerState) : Except String CallAction × HandlerState :=
  if !s.enabled then
    (.error "OcaAuthHandler was not enabled", s)
  else
    match s.server with
    | some _ => (.ok (.returnUri (mkUri s.port)), updateTimeout s)
    | none =>
      match s.serverCreationPromise with
      | some _ => (.ok .joinCreation, s)
      | none => (.ok .startCreation, { s with serverCreationPromise := some () })

/-! ## Port selection (`createServer` / `tryListenOnPort`)

`createServer` walks `this._ports` in order, attempting
`tryListenOnPort` on each candidate.  A bind attempt either succeeds
(the candidate becomes the recorded port), fails with `EADDRINUSE`
(continue with the next candidate), or fails with some other error code
(creation aborts and the error propagates).  When every candidate is in
use, creation fails with the `No available port in range` error.  The
environment — which candidates are free — is a function from port to
bind outcome. -/

inductive BindResult where
  | ok
  | addrInUse
  | fail (code : String)
  deriving Repr, DecidableEq

inductive CreateError where
  | noAvailablePort
  | bindError (code : String)
  deriving Repr, DecidableEq

/-- The port-iteration loop of `createServer`, over the candidate list and
a bind environment.  On success the bound candidate is returned (it
becomes `this.port`). -/
def createServer (bind : Nat → BindResult) : List Nat → Except CreateError Nat
  | [] => .error .noAvailablePort
  | p :: rest =>
    match bind p with
    | .ok => .ok p
    | .addrInUse => createServer bind rest
    | .fail code => .error (.bindError code)

/-- C3 (part): when every candidate is in use, creation fails with the
no-available-port error. -/
theorem createServer_all_in_use (bind : Nat → BindResult) (ports : List Nat)
    (h : ∀ p ∈ ports, bind p = .addrInUse) :
    createServer bind ports = .error .noAvailablePort := by
  induction ports with
  | nil => rfl
  | cons p rest ih =>
    have hp : bind p = .addrInUse := h p (List.mem_cons_self p rest)
    simp only [createServer, hp]
    exact ih fun q hq => h q (List.mem_cons_of_mem p hq)

/-- C3 (part): a successful creation returns the first candidate that is
not in use, and that candidate binds successfully. -/
theorem createServer_ok_first (bind : Nat → BindResult) (ports : List Nat) (q : Nat)
    (h : createServer bind ports = .ok q) :
    ∃ l1 l2, ports = l1 ++ q :: l2 ∧ (∀ p ∈ l1, bind p = .addrInUse) ∧ bind q = .ok := by
  induction ports with
  | nil => simp [createServer] at h
  | cons p rest ih =>
    rcases hb : bind p with _ | _ | code
    · refine ⟨[], rest, ?_, ?_, ?_⟩
      · simp only [createServer, hb] at h
        cases h
        simp
      · intro x hx; cases hx
      · simp only [createServer, hb] at h
        cases h
        exact hb
    · simp only [createServer, hb] at h
      obtain ⟨l1, l2, hsplit, hall, hq⟩ := ih h
      refine ⟨p :: l1, l2, by simp [hsplit], ?_, hq⟩
      intro x hx
      rcases List.mem_cons.mp hx with hx | hx
      · subst hx; exact hb
      · exact hall x hx
    · simp [createServer, hb] at h

/-- C3 (part): a non-`EADDRINUSE` bind error on the first candidate that
is not in use aborts creation and propagates that error. -/
theorem createServer_fail_propagates (bind : Nat → BindResult)
    (l1 l2 : List Nat) (p : Nat) (code : String)
    (h1 : ∀ x ∈ l1, bind x = .addrInUse) (hp : bind p = .fail code) :
    createServer bind (l1 ++ p :: l2) = .error (.bindError code) := by
  induction l1 with
  | nil => simp [createServer, hp]
  | cons x rest ih =>
    have hx : bind x = .addrInUse := h1 x (List.mem_cons_self x rest)
    simp only [List.cons_append, createServer, hx]
    exact ih fun y hy => h1 y (List.mem_cons_of_mem x hy)

/-- C3: the port-selection loop of `createServer` iterates the
candidates in order: an `EADDRINUSE` candidate is skipped, any other
bind error aborts and propagates, exhausting all candidates yields the
no-available-port error, and a success returns the first bindable
candidate as the recorded port. -/
theorem ocaC3_port_iteration (bind : Nat → BindResult) (ports l1 l2 : List Nat)
    (p q : Nat) (code : String) :
    (bind p = .addrInUse → createServer bind (p :: ports) = createServer bind ports) ∧
    ((∀ x ∈ ports, bind x = .addrInUse) →
      createServer bind ports = .error .noAvailablePort) ∧
    ((∀ x ∈ l1, bind x = .addrInUse) → bind p = .fail code →
      createServer bind (l1 ++ p :: l2) = .error (.bindError code)) ∧
    (createServer bind ports = .ok q →
      ∃ m1 m2, ports = m1 ++ q :: m2 ∧ (∀ x ∈ m1, bind x = .addrInUse) ∧ bind q = .ok) := by
  refine ⟨fun hp => by simp [createServer, hp],
    createServer_all_in_use bind ports,
    fun h1 hp => createServer_fail_propagates bind l1 l2 p code h1 hp,
    createServer_ok_first bind ports q⟩

/-- Witness for C3: ports `[3000, 3001, 3002]` with `3000` in use and
`3001` free — the loop skips `3000`; with all in use it reports
no-available-port; an `EACCES` on `3000` propagates. -/
theorem ocaC3_port_iteration_witness :
    createServer (fun p => if p = 3000 then .addrInUse else .ok) [3000, 3001, 3002] =
      .ok 3001 ∧
    createServer (fun _ => .addrInUse) [3000, 3001, 3002] = .error .noAvailablePort ∧
    createServer (fun _ => .fail "EACCES") [3000, 3001] =
      .error (.bindError "EACCES") := by
  have h1 := (ocaC3_port_iteration (fun p => if p = 3000 then .addrInUse else .ok)
    [3001, 3002] [] [] 3000 0 "").1 (by decide)
  have h2 := (ocaC3_port_iteration (fun _ => .addrInUse) [3000, 3001, 3002] [] [] 0 0 "").2.1
    (by intro x _; rfl)
  have h3 := (ocaC3_port_iteration (fun _ => .fail "EACCES") [] [] [3001] 3000 0 "EACCES").2.2.1
    (by intro x hx; cases hx) rfl
  refine ⟨?_, h2, h3⟩
  rw [show ([3000, 3001, 3002] : List Nat) = 3000 :: [3001, 3002] from rfl, h1]
  rfl

/-! ## Request handling (`handleRequest`)

The handler builds `base = hostCallbackUri + "/auth/oca"`, resolves the
request's path-and-query (`req.url`, defaulting to `"/"`) against it
with `new URL(pathAndQuery, base)`, and replies 302 with that target and
cache-disabling headers; if fetching the host callback URI (or the
rewrite) throws, it replies 500; in both branches `finally` stops the
server. -/

/-- Splits a character list at the first `://`, returning the scheme part
and the remainder after the `://`. -/
def schemeSplit : List Char → Option (List Char × List Char)
  | [] => none
  | ':' :: '/' :: '/' :: rest => some ([], rest)
  | c :: rest => (schemeSplit rest).map fun p => (c :: p.1, p.2)

/-- The characters before the first `/` (the authority of a URL whose
scheme and `://` have been stripped). -/
def takeAuthority : List Char → List Char
  | [] => []
  | c :: rest => if c = '/' then [] else c :: takeAuthority rest

/-- The origin (`scheme://authority`) of an absolute URL string: the part
up to and including the authority, dropping any path. -/
def urlOrigin (u : String) : String :=
  match schemeSplit u.data with
  | some (scheme, rest) => ⟨scheme ++ ':' :: '/' :: '/' :: takeAuthority rest⟩
  | none => u

/-- Whether a request target is origin-form (starts with `/`), the shape
Node's HTTP server delivers in `req.url`. -/
def startsWithSlash (u : String) : Bool :=
  match u.data with
  | '/' :: _ => true
  | _ => false

/-- WHATWG URL resolution `new URL(rel, base)` for the request targets a
Node HTTP server delivers (origin-form, i.e. `rel` starts with `/`): the
base keeps only its origin and the relative reference supplies path and
query.  (Models the platform `URL` constructor on the inputs
`handleRequest` feeds it.) -/
def newURL (rel base : String) : String :=
  if startsWithSlash rel then urlOrigin base ++ rel else base

structure HttpResponse where
  status : Nat
  location : Option String
  cacheControl : Option String
  pragma : Option String
  contentType : Option String
  body : String
  deriving Repr, DecidableEq

/-- `handleRequest`: `hostUri` is the result of
`HostProvider.get().getCallbackUri()` (an `Except`, since the fetch can
throw), `reqUrl` is `req.url` (absent is defaulted to `"/"`).  Returns
the response written and the handler state after the `finally` block. -/
def handleRequest (hostUri : Except String String) (reqUrl : Option String)
    (s : HandlerState) : HttpResponse × HandlerState :=
  match hostUri with
  | .ok uri =>
    let base := uri ++ "/auth/oca"
    let pathAndQuery := reqUrl.getD "/"
    let target := newURL pathAndQuery base
    (⟨302, some target, some "no-store, no-cache, must-revalidate", some "no-cache",
      none, ""⟩, stop s)
  | .error _ =>
    (⟨500, none, none, none, some "text/plain", "Internal Server Error"⟩, stop s)

/-- C4: every request is answered 302 with the Location obtained by
rewriting the local authority to the external callback base URL while
keeping the request's path and query, plus cache-disabling headers; an
internal failure is answered 500; and in both cases the server is
stopped afterwards (so the listener serves at most one request). -/
theorem ocaC4_handleRequest (hostUri : Except String String) (reqUrl : Option String)
    (s : HandlerState) (uri err u : String) :
    (hostUri = .ok uri → reqUrl = some u → startsWithSlash u = true →
      (handleRequest hostUri reqUrl s).1 =
        ⟨302, some (urlOrigin (uri ++ "/auth/oca") ++ u),
          some "no-store, no-cache, must-revalidate", some "no-cache", none, ""⟩) ∧
    (hostUri = .error err →
      (handleRequest hostUri reqUrl s).1 =
        ⟨500, none, none, none, some "text/plain", "Internal Server Error"⟩) ∧
    (handleRequest hostUri reqUrl s).2.server = none ∧
    (handleRequest hostUri reqUrl s).2 = stop s := by
  refine ⟨?_, ?_, ?_, ?_⟩
  · intro hok hreq hs
    subst hok hreq
    simp [handleRequest, newURL, hs]
  · intro herr
    subst herr
    rfl
  · cases hostUri <;> rfl
  · cases hostUri <;> rfl

/-- Witness for C4: a request for `/callback?code=42` against host
callback URI `vscode://publisher.extension` is redirected to
`vscode://publisher.extension/callback?code=42`. -/
theorem ocaC4_handleRequest_witness :
    (handleRequest (.ok "vscode://publisher.extension") (some "/callback?code=42")
        ⟨3000, some (), none, some (), true, [3000]⟩).1 =
      ⟨302, some "vscode://publisher.extension/callback?code=42",
        some "no-store, no-cache, must-revalidate", some "no-cache", none, ""⟩ := by
  have h := (ocaC4_handleRequest (.ok "vscode://publisher.extension")
    (some "/callback?code=42") ⟨3000, some (), none, some (), true, [3000]⟩
    "vscode://publisher.extension" "" "/callback?code=42").1 rfl rfl (by decide)
  rw [h]
  have horig : urlOrigin ("vscode://publisher.extension" ++ "/auth/oca") =
      "vscode://publisher.extension" := by decide
  rw [horig]
  decide

/-- C6: `stop()` is idempotent, total (no error on a never-started
listener), and afterwards the port is 0, no timer is pending, the
in-flight creation state is cleared and the server reference is null. -/
theorem ocaC6_stop_idempotent (s : HandlerState) :
    stop (stop s) = stop s ∧
    (stop s).port = 0 ∧
    (stop s).timeoutId = none ∧
    (stop s).serverCreationPromise = none ∧
    (stop s).server = none := by
  refine ⟨rfl, rfl, rfl, rfl, rfl⟩

/-- C10: when the handler is not enabled, `getCallbackUri()` rejects with
the `OcaAuthHandler was not enabled` error and leaves the listener state
(server, port, creation promise, timer) untouched. -/
theorem ocaC10_disabled_rejects (s : HandlerState) (h : s.enabled = false) :
    (getCallbackUri s).1 = .error "OcaAuthHandler was not enabled" ∧
    (getCallbackUri s).2 = s := by
  simp [getCallbackUri, h]

/-- Witness for C10 at a concrete disabled state. -/
theorem ocaC10_disabled_rejects_witness :
    (getCallbackUri ⟨0, none, none, none, false, [3000, 3001]⟩).1 =
      .error "OcaAuthHandler was not enabled" ∧
    (getCallbackUri ⟨0, none, none, none, false, [3000, 3001]⟩).2 =
      ⟨0, none, none, none, false, [3000, 3001]⟩ :=
  ocaC10_disabled_rejects ⟨0, none, none, none, false, [3000, 3001]⟩ rfl

/-! ## Single-flight creation (`getCallbackUri` concurrency)

Node's event loop interleaves the synchronous entry section of
`getCallbackUri` calls with the completion of the asynchronous bind
inside `createServer` and with the resumption of callers whose awaited
promise has settled.  The interleavings are traces of atomic steps over
a system state: the handler fields, counters of creations started and
binds completed, the callers currently awaiting the in-flight promise,
the callers whose promise has settled but who have not yet resumed, and
the URIs returned so far. -/

structure SysState where
  handler : HandlerState
  creationsStarted : Nat
  bindsCompleted : Nat
  waiting : Nat
  resumable : Nat
  results : List String
  deriving Repr, DecidableEq

inductive SysStep where
  | call
  | bindOk (p : Nat)
  | bindFail
  | resume
  deriving Repr, DecidableEq

/-- One atomic step of the event loop.  `call` runs the synchronous entry
section of `getCallbackUri` (an immediately-returning caller appends its
URI; a creation-awaiting caller joins `waiting`); `bindOk p` is the
successful bind inside the in-flight `createServer` (it records the
port, installs the server, arms the idle timer, clears the in-flight
promise, and settles every awaiting caller); `bindFail` is the failing
bind (state fields reset, awaiting callers reject); `resume` is a
settled caller resuming and returning `http://localhost:${this.port}`.
A step whose guard does not hold is not enabled (`none`). -/
def sysStep : SysStep → SysState → Option SysState
  | .call, s =>
    match getCallbackUri s.handler with
    | (.error _, _) => none
    | (.ok (.returnUri u), h) =>
      some { s with handler := h, results := s.results ++ [u] }
    | (.ok .joinCreation, h) =>
      some { s with handler := h, waiting := s.waiting + 1 }
    | (.ok .startCreation, h) =>
      some { s with
              handler := h
              waiting := s.waiting + 1
              creationsStarted := s.creationsStarted + 1 }
  | .bindOk p, s =>
    match s.handler.serverCreationPromise with
    | none => none
    | some _ =>
      some { s with
              handler := { s.handler with
                            server := some ()
                            port := p
                            serverCreationPromise := none
                            timeoutId := some () }
              bindsCompleted := s.bindsCompleted + 1
              resumable := s.resumable + s.waiting
              waiting := 0 }
  | .bindFail, s =>
    match s.handler.serverCreationPromise with
    | none => none
    | some _ =>
      some { s with
              handler := { s.handler with
                            server := none
                            port := 0
                            serverCreationPromise := none }
              waiting := 0 }
  | .resume, s =>
    match s.resumable with
    | 0 => none
    | r + 1 =>
      some { s with resumable := r, results := s.results ++ [mkUri s.handler.port] }

/-- Runs a trace of steps; a step whose guard fails aborts the run. -/
def sysRun : List SysStep → SysState → Option SysState
  | [], s => some s
  | st :: tr, s => (sysStep st s).bind (sysRun tr)

/-- The enabled handler before any server exists. -/
def sysInit (ports : List Nat) : SysState :=
  ⟨⟨0, none, none, none, true, ports⟩, 0, 0, 0, 0, []⟩

/-- The single-flight invariant of the callback listener system. -/
def SysInv (s : SysState) : Prop :=
  (s.handler.serverCreationPromise = some () →
    s.handler.server = none ∧ s.bindsCompleted = 0) ∧
  (s.bindsCompleted = 0 →
    s.handler.server = none ∧ s.results = [] ∧ s.resumable = 0) ∧
  (s.bindsCompleted ≤ 1) ∧
  (1 ≤ s.bindsCompleted → s.handler.server = some ()) ∧
  (∀ r ∈ s.results, r = mkUri s.handler.port)

/-- The no-failure part of the invariant, relative to the trace so far:
when no bind has failed, at most one creation has started, a call in the
trace forces exactly one, and an idle handler means none started. -/
def SysInvNoFail (tr : List SysStep) (s : SysState) : Prop :=
  SysStep.bindFail ∉ tr →
    (s.creationsStarted ≤ 1 ∧
     (SysStep.call ∈ tr → s.creationsStarted = 1) ∧
     (s.handler.server = none → s.handler.serverCreationPromise = none →
       s.creationsStarted = 0))

/-- The no-failure bookkeeping invariant: at most one creation started,
an idle handler means none started, and a live server or in-flight
promise means at least one started. -/
def NFInv (s : SysState) : Prop :=
  s.creationsStarted ≤ 1 ∧
  (s.handler.server = none → s.handler.serverCreationPromise = none →
    s.creationsStarted = 0) ∧
  ((s.handler.server = some () ∨ s.handler.serverCreationPromise = some ()) →
    1 ≤ s.creationsStarted)

theorem sysInv_init (ports : List Nat) : SysInv (sysInit ports) := by
  simp [SysInv, sysInit]

theorem nfInv_init (ports : List Nat) : NFInv (sysInit ports) := by
  simp [NFInv, sysInit]

theorem sysInv_step (st : SysStep) (s s' : SysState)
    (hstep : sysStep st s = some s') (hinv : SysInv s) : SysInv s' := by
  obtain ⟨⟨port, server, promise, timer, en, ports⟩, cs, bc, w, rsm, res⟩ := s
  dsimp only [SysInv] at hinv
  obtain ⟨hprom, hzero, hle, hsrv, hres⟩ := hinv
  cases st with
  | call =>
    cases en with
    | false => exact Option.noConfusion hstep
    | true =>
      cases server with
      | some u =>
        cases u
        cases Option.some.inj hstep
        dsimp only [SysInv, updateTimeout]
        refine ⟨fun hp => absurd (hprom hp).1 (by simp), ?_, hle, fun _ => rfl, ?_⟩
        · intro hb
          exact absurd (hzero hb).1 (by simp)
        · intro r hr
          rcases List.mem_append.mp hr with hr | hr
          · exact hres r hr
          · exact List.mem_singleton.mp hr
      | none =>
        cases promise with
        | some u =>
          cases u
          cases Option.some.inj hstep
          dsimp only [SysInv]
          exact ⟨hprom, hzero, hle, hsrv, hres⟩
        | none =>
          cases Option.some.inj hstep
          dsimp only [SysInv]
          have hb0 : bc = 0 := by
            by_contra hb
            exact absurd (hsrv (by omega)) (by simp)
          refine ⟨fun _ => ⟨rfl, hb0⟩, fun hb => ⟨rfl, (hzero hb).2.1, (hzero hb).2.2⟩,
            hle, fun hb => absurd hb (by omega), hres⟩
  | bindOk p =>
    cases promise with
    | none => exact Option.noConfusion hstep
    | some u =>
      cases u
      cases Option.some.inj hstep
      dsimp only [SysInv]
      have hb0 : bc = 0 := (hprom rfl).2
      have hres0 : res = [] := (hzero hb0).2.1
      subst hres0
      refine ⟨fun hp => Option.noConfusion hp, fun hb => absurd hb (by omega),
        by omega, fun _ => rfl, fun r hr => absurd hr (List.not_mem_nil r)⟩
  | bindFail =>
    cases promise with
    | none => exact Option.noConfusion hstep
    | some u =>
      cases u
      cases Option.some.inj hstep
      dsimp only [SysInv]
      have hb0 : bc = 0 := (hprom rfl).2
      exact ⟨fun hp => Option.noConfusion hp,
        fun _ => ⟨rfl, (hzero hb0).2.1, (hzero hb0).2.2⟩,
        hle, fun hb => absurd hb (by omega),
        fun r hr => absurd ((hzero hb0).2.1 ▸ hr) (List.not_mem_nil r)⟩
  | resume =>
    cases rsm with
    | zero => exact Option.noConfusion hstep
    | succ n =>
      cases Option.some.inj hstep
      dsimp only [SysInv]
      have hb1 : 1 ≤ bc := by
        by_contra hb
        have := (hzero (by omega)).2.2
        omega
      refine ⟨hprom, fun hb => absurd hb (by omega), hle, hsrv, ?_⟩
      intro r hr
      rcases List.mem_append.mp hr with hr | hr
      · exact hres r hr
      · exact List.mem_singleton.mp hr

theorem nfInv_step (st : SysStep) (s s' : SysState)
    (hstep : sysStep st s = some s') (hnf : NFInv s) (hne : st ≠ .bindFail) :
    NFInv s' ∧ s.creationsStarted ≤ s'.creationsStarted ∧
      (st = .call → 1 ≤ s'.creationsStarted) := by
  obtain ⟨⟨port, server, promise, timer, en, ports⟩, cs, bc, w, rsm, res⟩ := s
  dsimp only [NFInv] at hnf
  obtain ⟨h1, h2, h3⟩ := hnf
  cases st with
  | call =>
    cases en with
    | false => exact Option.noConfusion hstep
    | true =>
      cases server with
      | some u =>
        cases u
        cases Option.some.inj hstep
        dsimp only [NFInv, updateTimeout]
        exact ⟨⟨h1, h2, h3⟩, Nat.le_refl cs, fun _ => h3 (Or.inl rfl)⟩
      | none =>
        cases promise with
        | some u =>
          cases u
          cases Option.some.inj hstep
          dsimp only [NFInv]
          exact ⟨⟨h1, h2, h3⟩, Nat.le_refl cs, fun _ => h3 (Or.inr rfl)⟩
        | none =>
          cases Option.some.inj hstep
          dsimp only [NFInv]
          have hc0 : cs = 0 := h2 rfl rfl
          exact ⟨⟨by omega, fun _ hp => Option.noConfusion hp, fun _ => by omega⟩,
            by omega, fun _ => by omega⟩
  | bindOk p =>
    cases promise with
    | none => exact Option.noConfusion hstep
    | some u =>
      cases u
      cases Option.some.inj hstep
      dsimp only [NFInv]
      have hc1 : 1 ≤ cs := h3 (Or.inr rfl)
      exact ⟨⟨h1, fun hs => absurd hs (by simp), fun _ => hc1⟩,
        Nat.le_refl cs, fun h => SysStep.noConfusion h⟩
  | bindFail => exact absurd rfl hne
  | resume =>
    cases rsm with
    | zero => exact Option.noConfusion hstep
    | succ n =>
      cases Option.some.inj hstep
      dsimp only [NFInv]
      exact ⟨⟨h1, h2, h3⟩, Nat.le_refl cs, fun h => SysStep.noConfusion h⟩

theorem sysInv_run (tr : List SysStep) (s s' : SysState)
    (h : sysRun tr s = some s') (hinv : SysInv s) : SysInv s' := by
  induction tr generalizing s with
  | nil => cases Option.some.inj h; exact hinv
  | cons st tr ih =>
    simp only [sysRun] at h
    cases hst : sysStep st s with
    | none => rw [hst] at h; exact Option.noConfusion h
    | some s1 =>
      rw [hst] at h
      exact ih s1 h (sysInv_step st s s1 hst hinv)

theorem nfInv_run (tr : List SysStep) (s s' : SysState)
    (h : sysRun tr s = some s') (hnf : NFInv s) (hne : SysStep.bindFail ∉ tr) :
    NFInv s' ∧ s.creationsStarted ≤ s'.creationsStarted ∧
      (SysStep.call ∈ tr → 1 ≤ s'.creationsStarted) := by
  induction tr generalizing s with
  | nil =>
    cases Option.some.inj h
    exact ⟨hnf, Nat.le_refl _, fun hm => absurd hm (List.not_mem_nil _)⟩
  | cons st tr ih =>
    simp only [sysRun] at h
    cases hst : sysStep st s with
    | none => rw [hst] at h; exact Option.noConfusion h
    | some s1 =>
      rw [hst] at h
      have hstne : st ≠ .bindFail := fun he => hne (he ▸ List.mem_cons_self st tr)
      have htrne : SysStep.bindFail ∉ tr := fun he => hne (List.mem_cons_of_mem st he)
      obtain ⟨hnf1, hmono1, hcall1⟩ := nfInv_step st s s1 hst hnf hstne
      obtain ⟨hnf2, hmono2, hcall2⟩ := ih s1 h hnf1 htrne
      refine ⟨hnf2, Nat.le_trans hmono1 hmono2, ?_⟩
      intro hm
      rcases List.mem_cons.mp hm with rfl | hm
      · exact Nat.le_trans (hcall1 rfl) hmono2
      · exact hcall2 hm

/-- C2: in every event-loop interleaving from the initial (no-server)
state, at most one listener is ever bound, every caller that returns
receives the same URI (the single bound port), and — as long as no bind
fails — at most one creation is ever started, exactly one once some
caller has arrived; moreover a caller arriving while a creation is in
flight joins that creation (same promise, one more waiter, no new
creation) rather than starting a second server. -/
theorem ocaC2_singleFlight (ports : List Nat) (tr : List SysStep) (s' : SysState)
    (h : sysRun tr (sysInit ports) = some s') :
    s'.bindsCompleted ≤ 1 ∧
    (∀ r ∈ s'.results, r = mkUri s'.handler.port) ∧
    (SysStep.bindFail ∉ tr → s'.creationsStarted ≤ 1) ∧
    (SysStep.bindFail ∉ tr → SysStep.call ∈ tr → s'.creationsStarted = 1) ∧
    (∀ t t' : SysState, t.handler.enabled = true → t.handler.server = none →
      t.handler.serverCreationPromise = some () → sysStep .call t = some t' →
      t'.creationsStarted = t.creationsStarted ∧ t'.waiting = t.waiting + 1 ∧
        t'.handler = t.handler) := by
  have hinv := sysInv_run tr (sysInit ports) s' h (sysInv_init ports)
  refine ⟨hinv.2.2.1, hinv.2.2.2.2, ?_, ?_, ?_⟩
  · intro hne
    exact (nfInv_run tr (sysInit ports) s' h (nfInv_init ports) hne).1.1
  · intro hne hcall
    obtain ⟨⟨hle, _, _⟩, _, hone⟩ := nfInv_run tr (sysInit ports) s' h (nfInv_init ports) hne
    have := hone hcall
    omega
  · intro t t' hen hsv hsp hstep
    obtain ⟨⟨port, server, promise, timer, en, ports'⟩, cs, bc, w, rsm, res⟩ := t
    cases en with
    | false => exact absurd hen (by simp)
    | true =>
      cases server with
      | some u => exact absurd hsv (by simp)
      | none =>
        cases promise with
        | none => exact absurd hsp (by simp)
        | some u =>
          cases u
          cases Option.some.inj hstep
          exact ⟨rfl, rfl, rfl⟩

/-- Witness for C2: two concurrent callers, a successful bind on port
3000, both resumptions, then a third caller against the running
server — one bind, one creation. -/
theorem ocaC2_singleFlight_witness :
    ((sysRun [SysStep.call, .call, .bindOk 3000, .resume, .resume, .call]
        (sysInit [3000])).getD (sysInit [3000])).bindsCompleted ≤ 1 ∧
    ((sysRun [SysStep.call, .call, .bindOk 3000, .resume, .resume, .call]
        (sysInit [3000])).getD (sysInit [3000])).creationsStarted = 1 := by
  have h := ocaC2_singleFlight [3000]
    [SysStep.call, .call, .bindOk 3000, .resume, .resume, .call]
    ((sysRun [SysStep.call, .call, .bindOk 3000, .resume, .resume, .call]
      (sysInit [3000])).getD (sysInit [3000])) rfl
  exact ⟨h.1, h.2.2.2.1 (by decide) (by decide)⟩

/-! ## Auth status subscriber (`auth_oca_subscription.go`)

`OCAAuthStatusListener.WaitForAuthentication` selects repeatedly over
the timeout timer, the cancellable context, the error channel, and the
buffered updates channel.  The select loop is embedded as a function
over the sequence of channel arrivals, in arrival order: each arrival is
the firing of the timer, the context being cancelled, a stream error, or
an `*cline.OcaAuthState` event (`none` models a nil pointer). -/

structure OcaAuthState where
  user : Option String
  apiKey : Option String
  deriving Repr, DecidableEq

/-- `isOCAAuthenticated`: the state pointer is non-nil, `User` is non-nil
and `ApiKey` is non-nil and non-empty. -/
def isOCAAuthenticated (state : Option OcaAuthState) : Bool :=
  match state with
  | none => false
  | some s => s.user.isSome && (match s.apiKey with
      | some k => decide (k ≠ "")
      | none => false)

inductive WaitInput where
  | timerFired
  | ctxDone
  | streamErr (e : String)
  | event (state : Option OcaAuthState)
  deriving Repr, DecidableEq

inductive WaitOutcome where
  | success
  | timeoutErr
  | cancelledErr
  | streamFailure (e : String)
  | pending
  deriving Repr, DecidableEq

/-- The select loop of `WaitForAuthentication`, over the sequence of
channel arrivals: the timer firing returns the timeout error, context
cancellation the cancellation error, an error-channel arrival the
wrapped stream error; an event satisfying `isOCAAuthenticated` returns
success, and a non-qualifying event is discarded and the loop
continues.  `pending` is the still-blocked wait (no arrival decided
it). -/
def WaitForAuthentication : List WaitInput → WaitOutcome
  | [] => .pending
  | .timerFired :: _ => .timeoutErr
  | .ctxDone :: _ => .cancelledErr
  | .streamErr e :: _ => .streamFailure e
  | .event st :: rest =>
    if isOCAAuthenticated st then .success else WaitForAuthentication rest

/-- C1 (part): over a pure sequence of delivered events, the wait
succeeds exactly when some delivered event is authenticated. -/
theorem waitForAuthentication_success_iff (events : List (Option OcaAuthState)) :
    WaitForAuthentication (events.map .event) = .success ↔
      ∃ st ∈ events, isOCAAuthenticated st = true := by
  induction events with
  | nil => simp [WaitForAuthentication]
  | cons st rest ih =>
    by_cases h : isOCAAuthenticated st = true
    · simp [WaitForAuthentication, h]
    · have h' : isOCAAuthenticated st = false := by
        cases hb : isOCAAuthenticated st
        · rfl
        · exact absurd hb h
      rw [List.map_cons,
        show WaitForAuthentication (.event st :: rest.map .event) =
          WaitForAuthentication (rest.map .event) from by
            simp [WaitForAuthentication, h'],
        ih]
      simp [List.mem_cons, h']

/-- C1: `WaitForAuthentication` returns success iff some delivered event
carries both an identity and a non-empty credential; an event carrying
only one of the two (identity without credential, credential without
identity, or an empty credential) is discarded and the wait continues. -/
theorem ocaC1_wait_success_iff (events : List (Option OcaAuthState))
    (st : Option OcaAuthState) (rest : List WaitInput) :
    (WaitForAuthentication (events.map .event) = .success ↔
      ∃ s ∈ events, isOCAAuthenticated s = true) ∧
    (isOCAAuthenticated st = false →
      WaitForAuthentication (.event st :: rest) = WaitForAuthentication rest) ∧
    (∀ s : OcaAuthState, isOCAAuthenticated (some s) = true ↔
      s.user.isSome = true ∧ ∃ k, s.apiKey = some k ∧ k ≠ "") := by
  refine ⟨waitForAuthentication_success_iff events, ?_, ?_⟩
  · intro h
    simp [WaitForAuthentication, h]
  · intro s
    cases hu : s.user <;> cases hk : s.apiKey <;>
      simp [isOCAAuthenticated, hu, hk]

/-- Witness for C1: an identity-only event and a credential-only event
are discarded; adding an event with both yields success. -/
theorem ocaC1_wait_success_iff_witness :
    (WaitForAuthentication
        ([some ⟨some "uid1", none⟩, some ⟨none, some "key"⟩,
          some ⟨some "uid1", some "key"⟩].map .event) = .success ↔
      ∃ s ∈ [some (⟨some "uid1", none⟩ : OcaAuthState), some ⟨none, some "key"⟩,
          some ⟨some "uid1", some "key"⟩], isOCAAuthenticated s = true) ∧
    WaitForAuthentication (.event (some ⟨some "uid1", some ""⟩) :: [.timerFired]) =
      WaitForAuthentication [.timerFired] :=
  ⟨(ocaC1_wait_success_iff [some ⟨some "uid1", none⟩, some ⟨none, some "key"⟩,
      some ⟨some "uid1", some "key"⟩] none []).1,
   (ocaC1_wait_success_iff [] (some ⟨some "uid1", some ""⟩) [.timerFired]).2.1 (by decide)⟩

/-- C7: when no qualifying event is delivered and the timer fires (with
no cancellation or stream error first), the wait returns the timeout
error — however many non-qualifying events arrived first — and the
timeout error is a distinct error kind from a stream failure. -/
theorem ocaC7_timeout_distinct (events : List (Option OcaAuthState))
    (h : ∀ st ∈ events, isOCAAuthenticated st = false) :
    WaitForAuthentication (events.map .event ++ [.timerFired]) = .timeoutErr ∧
    ∀ e : String, (WaitOutcome.timeoutErr ≠ WaitOutcome.streamFailure e) := by
  refine ⟨?_, fun e h => by cases h⟩
  induction events with
  | nil => rfl
  | cons st rest ih =>
    have hst : isOCAAuthenticated st = false := h st (List.mem_cons_self st rest)
    simp only [List.map_cons, List.cons_append, WaitForAuthentication, hst,
      Bool.false_eq_true, if_false]
    exact ih fun s hs => h s (List.mem_cons_of_mem st hs)

/-- Witness for C7: two non-qualifying events then the timer firing. -/
theorem ocaC7_timeout_distinct_witness :
    WaitForAuthentication
      ([none, some ⟨some "uid1", some ""⟩].map .event ++ [.timerFired]) = .timeoutErr :=
  (ocaC7_timeout_distinct [none, some ⟨some "uid1", some ""⟩] (by decide)).1

/-! ## Sign-in orchestration (`ocaSignIn`)

`ocaSignIn` runs a fixed sequence of steps, each of which may fail and
abort the flow with an error.  The environment fixes each collaborator
call's outcome; running the function yields the result together with
the ordered trace of collaborator calls actually issued. -/

inductive SignInAction where
  | storeMode
  | promptBase
  | storeBaseURL
  | verifyState
  | subscribe
  | startListener
  | loginRPC
  | waitAuth
  | stopListener
  deriving Repr, DecidableEq

structure SignInEnv where
  alreadyAuthenticated : Bool
  createManager : Except String Unit
  storeMode : Except String Unit
  promptBase : Except String String
  storeBaseURL : Except String Unit
  verify : Except String Unit
  subscribe : Except String Unit
  startListener : Except String Unit
  login : Except String String
  waitAuth : Except String Unit

/-- `ocaSignIn`: early return when already authenticated; then create the
task manager, store the mode, prompt for the base URL, store it when
non-empty, verify the stored state round-trips, subscribe to auth
status updates (with `defer listener.Stop()` from here on), start the
listener, issue the login-initiation RPC, wait for authentication
(5-minute deadline), and finally set the session flag.  Returns the
result, the trace of collaborator calls in order, and the session flag
value produced from `flag` (the process-wide
`isOCASessionAuthenticated`). -/
def ocaSignIn (env : SignInEnv) (flag : Bool) :
    Except String Unit × List SignInAction × Bool :=
  if env.alreadyAuthenticated then (.ok (), [], flag)
  else match env.createManager with
  | .error e => (.error ("failed to create task manager: " ++ e), [], flag)
  | .ok _ =>
    match env.storeMode with
    | .error e => (.error ("failed to store OCA mode: " ++ e), [.storeMode], flag)
    | .ok _ =>
      match env.promptBase with
      | .error e => (.error e, [.storeMode, .promptBase], flag)
      | .ok baseURL =>
        let t1 : List SignInAction :=
          if baseURL = "" then [.storeMode, .promptBase]
          else [.storeMode, .promptBase, .storeBaseURL]
        match (if baseURL = "" then Except.ok () else env.storeBaseURL) with
        | .error e => (.error ("failed to store OCA base URL: " ++ e), t1, flag)
        | .ok _ =>
          match env.verify with
          | .error e => (.error ("failed to verify OCA state: " ++ e),
              t1 ++ [.verifyState], flag)
          | .ok _ =>
            match env.subscribe with
            | .error e => (.error ("failed to subscribe to OCA auth updates: " ++ e),
                t1 ++ [.verifyState, .subscribe], flag)
            | .ok _ =>
              match env.startListener with
              | .error e => (.error ("failed to start OCA auth listener: " ++ e),
                  t1 ++ [.verifyState, .subscribe, .startListener, .stopListener], flag)
              | .ok _ =>
                match env.login with
                | .error e => (.error ("failed to initiate OCA login: " ++ e),
                    t1 ++ [.verifyState, .subscribe, .startListener, .loginRPC,
                      .stopListener], flag)
                | .ok _ =>
                  match env.waitAuth with
                  | .error e => (.error e,
                      t1 ++ [.verifyState, .subscribe, .startListener, .loginRPC,
                        .waitAuth, .stopListener], flag)
                  | .ok _ => (.ok (),
                      t1 ++ [.verifyState, .subscribe, .startListener, .loginRPC,
                        .waitAuth, .stopListener], true)

/-- C5: whenever the login-initiation RPC appears in the trace, the mode
store, the round-trip verification, the subscription and the listener
start all precede it (and the base-URL store does too when a non-empty
base URL was provided); an already-authenticated entry issues no call at
all; and a failure of any earlier step means the login-initiation RPC is
never invoked. -/
theorem ocaC5_signin_ordering (env : SignInEnv) (flag : Bool) :
    (SignInAction.loginRPC ∈ (ocaSignIn env flag).2.1 →
      ∃ pre post, (ocaSignIn env flag).2.1 = pre ++ .loginRPC :: post ∧
        SignInAction.storeMode ∈ pre ∧ SignInAction.verifyState ∈ pre ∧
        SignInAction.subscribe ∈ pre ∧ SignInAction.startListener ∈ pre ∧
        (∀ b, env.promptBase = .ok b → b ≠ "" → SignInAction.storeBaseURL ∈ pre)) ∧
    (env.alreadyAuthenticated = true → (ocaSignIn env flag).2.1 = []) ∧
    ((∃ e, env.storeMode = .error e) →
      SignInAction.loginRPC ∉ (ocaSignIn env flag).2.1) ∧
    ((∃ e b, env.promptBase = .ok b ∧ b ≠ "" ∧ env.storeBaseURL = .error e) →
      SignInAction.loginRPC ∉ (ocaSignIn env flag).2.1) ∧
    ((∃ e, env.verify = .error e) →
      SignInAction.loginRPC ∉ (ocaSignIn env flag).2.1) ∧
    ((∃ e, env.subscribe = .error e) →
      SignInAction.loginRPC ∉ (ocaSignIn env flag).2.1) ∧
    ((∃ e, env.startListener = .error e) →
      SignInAction.loginRPC ∉ (ocaSignIn env flag).2.1) := by
  obtain ⟨a, m, sm, pb, sbu, v, sub, st, lg, w⟩ := env
  cases a with
  | true => simp [ocaSignIn]
  | false =>
  cases m with
  | error e => simp [ocaSignIn]
  | ok um =>
  cases um
  cases sm with
  | error e => simp [ocaSignIn]
  | ok usm =>
  cases usm
  cases pb with
  | error e => simp [ocaSignIn]
  | ok b =>
  by_cases hb : b = ""
  · subst hb
    cases v with
    | error e => simp [ocaSignIn]
    | ok uv =>
    cases uv
    cases sub with
    | error e => simp [ocaSignIn]
    | ok usub =>
    cases usub
    cases st with
    | error e => simp [ocaSignIn]
    | ok ust =>
    cases ust
    have hpre : ∀ b', (Except.ok "" : Except String String) = Except.ok b' → b' ≠ "" →
        SignInAction.storeBaseURL ∈
          [SignInAction.storeMode, .promptBase, .verifyState, .subscribe,
            .startListener] := by
      intro b' hb' hne
      exact absurd (Except.ok.inj hb').symm hne
    cases lg with
    | error e =>
      refine ⟨fun _ => ⟨[.storeMode, .promptBase, .verifyState, .subscribe,
        .startListener], [.stopListener], by simp [ocaSignIn], by decide, by decide,
        by decide, by decide, hpre⟩, ?_⟩
      simp [ocaSignIn]
    | ok lgs =>
    cases w with
    | error e =>
      refine ⟨fun _ => ⟨[.storeMode, .promptBase, .verifyState, .subscribe,
        .startListener], [.waitAuth, .stopListener], by simp [ocaSignIn], by decide,
        by decide, by decide, by decide, hpre⟩, ?_⟩
      simp [ocaSignIn]
    | ok uw =>
      refine ⟨fun _ => ⟨[.storeMode, .promptBase, .verifyState, .subscribe,
        .startListener], [.waitAuth, .stopListener], by simp [ocaSignIn], by decide,
        by decide, by decide, by decide, hpre⟩, ?_⟩
      simp [ocaSignIn]
  · cases sbu with
    | error e => simp [ocaSignIn, hb]
    | ok usbu =>
    cases usbu
    cases v with
    | error e => simp [ocaSignIn, hb]
    | ok uv =>
    cases uv
    cases sub with
    | error e => simp [ocaSignIn, hb]
    | ok usub =>
    cases usub
    cases st with
    | error e => simp [ocaSignIn, hb]
    | ok ust =>
    cases ust
    have hpre : ∀ b', (Except.ok b : Except String String) = Except.ok b' → b' ≠ "" →
        SignInAction.storeBaseURL ∈
          [SignInAction.storeMode, .promptBase, .storeBaseURL, .verifyState,
            .subscribe, .startListener] := by
      intro b' _ _
      decide
    cases lg with
    | error e =>
      refine ⟨fun _ => ⟨[.storeMode, .promptBase, .storeBaseURL, .verifyState,
        .subscribe, .startListener], [.stopListener], by simp [ocaSignIn, hb],
        by decide, by decide, by decide, by decide, hpre⟩, ?_⟩
      simp [ocaSignIn, hb]
    | ok lgs =>
    cases w with
    | error e =>
      refine ⟨fun _ => ⟨[.storeMode, .promptBase, .storeBaseURL, .verifyState,
        .subscribe, .startListener], [.waitAuth, .stopListener],
        by simp [ocaSignIn, hb], by decide, by decide, by decide, by decide, hpre⟩, ?_⟩
      simp [ocaSignIn, hb]
    | ok uw =>
      refine ⟨fun _ => ⟨[.storeMode, .promptBase, .storeBaseURL, .verifyState,
        .subscribe, .startListener], [.waitAuth, .stopListener],
        by simp [ocaSignIn, hb], by decide, by decide, by decide, by decide, hpre⟩, ?_⟩
      simp [ocaSignIn, hb]

/-- Witness for C5: all steps succeed with a non-empty base URL — the
trace places `storeMode`, `storeBaseURL`, `verifyState`, `subscribe`
and `startListener` before `loginRPC`. -/
theorem ocaC5_signin_ordering_witness :
    (ocaSignIn ⟨false, .ok (), .ok (), .ok "https://oca.example.test", .ok (), .ok (),
        .ok (), .ok (), .ok "https://auth.example.test/authorize", .ok ()⟩ false).2.1 =
      [SignInAction.storeMode, .promptBase, .storeBaseURL, .verifyState, .subscribe,
        .startListener, .loginRPC, .waitAuth, .stopListener] ∧
    SignInAction.loginRPC ∈
      (ocaSignIn ⟨false, .ok (), .ok (), .ok "https://oca.example.test", .ok (), .ok (),
        .ok (), .ok (), .ok "https://auth.example.test/authorize", .ok ()⟩ false).2.1 := by
  have h := (ocaC5_signin_ordering ⟨false, .ok (), .ok (), .ok "https://oca.example.test",
    .ok (), .ok (), .ok (), .ok (), .ok "https://auth.example.test/authorize", .ok ()⟩
    false).1 (by decide)
  obtain ⟨pre, post, heq, -, -, -, -, -⟩ := h
  refine ⟨by decide, ?_⟩
  rw [heq]
  simp

/-! ## The authenticated-session cache (`isOCASessionAuthenticated`)

The process-wide boolean `isOCASessionAuthenticated` is written by
`ocaSignIn` (set on success), by `ocaSignOut` (cleared on a successful
logout RPC), and — contrary to a read-only entry check — also by
`IsOCAAuthenticated` itself, which caches a positive server-side
verification.  `IsOCAVerifyEnv` fixes the collaborator outcomes of one
entry check: whether the task manager and state fetch succeed, whether
the state JSON parses, and the `ocaUserInfo.uid` / `ocaApiKey` fields
found in it. -/

structure IsOCAVerifyEnv where
  managerOk : Bool
  stateFetchOk : Bool
  parseOk : Bool
  ocaUserUid : Option String
  ocaApiKey : Option String
  deriving Repr, DecidableEq

/-- Whether the Configuration Store state confirms authentication: the
fetch pipeline succeeded and either a non-empty `ocaUserInfo.uid` or a
non-empty `ocaApiKey` is present. -/
def ocaStoreConfirms (env : IsOCAVerifyEnv) : Bool :=
  env.managerOk && env.stateFetchOk && env.parseOk &&
    ((match env.ocaUserUid with
      | some uid => decide (uid ≠ "")
      | none => false) ||
     (match env.ocaApiKey with
      | some k => decide (k ≠ "")
      | none => false))

/-- `IsOCAAuthenticated`: returns early when the session cache is set;
otherwise verifies against the server state and, on a positive
verification, sets `isOCASessionAuthenticated = true`.  Returns the
check's result together with the cache value after the call. -/
def IsOCAAuthenticated (cache : Bool) (env : IsOCAVerifyEnv) : Bool × Bool :=
  if cache then (true, cache)
  else if !env.managerOk then (false, cache)
  else if !env.stateFetchOk then (false, cache)
  else if !env.parseOk then (false, cache)
  else match env.ocaUserUid with
  | some uid =>
    if uid ≠ "" then (true, true)
    else match env.ocaApiKey with
      | some k => if k ≠ "" then (true, true) else (false, cache)
      | none => (false, cache)
  | none =>
    match env.ocaApiKey with
    | some k => if k ≠ "" then (true, true) else (false, cache)
    | none => (false, cache)

/-- `ocaSignOut`: issues the logout RPC; on success the session cache is
cleared, on failure it is left as it was.  Returns the result and the
cache value after the call. -/
def ocaSignOut (rpc : Except String Unit) (cache : Bool) :
    Except String Unit × Bool :=
  match rpc with
  | .ok _ => (.ok (), false)
  | .error e => (.error ("failed to logout from OCA: " ++ e), cache)

/-- C8 counterexample: the entry check does not leave the cache
unchanged — with the cache clear and the store reporting a non-empty
`ocaUserInfo.uid`, `IsOCAAuthenticated` flips the cache to `true`. -/
theorem ocaC8_entry_check_mutates :
    (IsOCAAuthenticated false ⟨true, true, true, some "user-123", none⟩).2 ≠ false := by
  decide

/-- C8 (amended): the cache is set to `true` by `ocaSignIn` on success
and by the entry check exactly when the Configuration Store confirms
authentication; it is set to `false` only by a successful `ocaSignOut`;
failed checks and failed logouts leave it unchanged. -/
theorem ocaC8_cache_mutation (cache : Bool) (env : IsOCAVerifyEnv)
    (senv : SignInEnv) (flag : Bool) :
    (IsOCAAuthenticated cache env).2 = (cache || ocaStoreConfirms env) ∧
    (IsOCAAuthenticated cache env).1 = (IsOCAAuthenticated cache env).2 ∧
    (ocaSignOut (.ok ()) cache).2 = false ∧
    (∀ e, (ocaSignOut (.error e) cache).2 = cache) ∧
    ((ocaSignIn senv flag).1 = .ok () → senv.alreadyAuthenticated = false →
      (ocaSignIn senv flag).2.2 = true) ∧
    ((ocaSignIn senv flag).1 ≠ .ok () → (ocaSignIn senv flag).2.2 = flag) := by
  refine ⟨?_, ?_, rfl, fun e => rfl, ?_, ?_⟩
  · cases cache with
    | true => rfl
    | false =>
      obtain ⟨mg, sf, pr, uid, key⟩ := env
      cases mg <;> cases sf <;> cases pr <;>
        first
        | rfl
        | (cases uid with
           | none =>
             cases key with
             | none => rfl
             | some k =>
               by_cases hk : k = "" <;>
                 simp [IsOCAAuthenticated, ocaStoreConfirms, hk]
           | some u =>
             by_cases hu : u = ""
             · cases key with
               | none => simp [IsOCAAuthenticated, ocaStoreConfirms, hu]
               | some k =>
                 by_cases hk : k = "" <;>
                   simp [IsOCAAuthenticated, ocaStoreConfirms, hu, hk]
             · simp [IsOCAAuthenticated, ocaStoreConfirms, hu])
  · cases cache with
    | true => rfl
    | false =>
      obtain ⟨mg, sf, pr, uid, key⟩ := env
      cases mg <;> cases sf <;> cases pr <;>
        first
        | rfl
        | (cases uid with
           | none =>
             cases key with
             | none => rfl
             | some k => by_cases hk : k = "" <;> simp [IsOCAAuthenticated, hk]
           | some u =>
             by_cases hu : u = ""
             · cases key with
               | none => simp [IsOCAAuthenticated, hu]
               | some k => by_cases hk : k = "" <;> simp [IsOCAAuthenticated, hu, hk]
             · simp [IsOCAAuthenticated, hu])
  · intro hok ha
    obtain ⟨a, m, sm, pb, sbu, v, sub, st, lg, w⟩ := senv
    cases a with
    | true => simp at ha
    | false =>
      cases m with
      | error e => simp [ocaSignIn] at hok
      | ok um =>
      cases sm with
      | error e => simp [ocaSignIn] at hok
      | ok usm =>
      cases pb with
      | error e => simp [ocaSignIn] at hok
      | ok b =>
      by_cases hb : b = ""
      · subst hb
        cases v with
        | error e => simp [ocaSignIn] at hok
        | ok uv =>
        cases sub with
        | error e => simp [ocaSignIn] at hok
        | ok usub =>
        cases st with
        | error e => simp [ocaSignIn] at hok
        | ok ust =>
        cases lg with
        | error e => simp [ocaSignIn] at hok
        | ok lgs =>
        cases w with
        | error e => simp [ocaSignIn] at hok
        | ok uw => simp [ocaSignIn]
      · cases sbu with
        | error e => simp [ocaSignIn, hb] at hok
        | ok usbu =>
        cases v with
        | error e => simp [ocaSignIn, hb] at hok
        | ok uv =>
        cases sub with
        | error e => simp [ocaSignIn, hb] at hok
        | ok usub =>
        cases st with
        | error e => simp [ocaSignIn, hb] at hok
        | ok ust =>
        cases lg with
        | error e => simp [ocaSignIn, hb] at hok
        | ok lgs =>
        cases w with
        | error e => simp [ocaSignIn, hb] at hok
        | ok uw => simp [ocaSignIn, hb]
  · intro hne
    obtain ⟨a, m, sm, pb, sbu, v, sub, st, lg, w⟩ := senv
    cases a with
    | true => exact absurd rfl hne
    | false =>
      cases m with
      | error e => rfl
      | ok um =>
      cases sm with
      | error e => rfl
      | ok usm =>
      cases pb with
      | error e => rfl
      | ok b =>
      by_cases hb : b = ""
      · subst hb
        cases v with
        | error e => simp [ocaSignIn]
        | ok uv =>
        cases sub with
        | error e => simp [ocaSignIn]
        | ok usub =>
        cases st with
        | error e => simp [ocaSignIn]
        | ok ust =>
        cases lg with
        | error e => simp [ocaSignIn]
        | ok lgs =>
        cases w with
        | error e => simp [ocaSignIn]
        | ok uw => simp [ocaSignIn] at hne
      · cases sbu with
        | error e => simp [ocaSignIn, hb]
        | ok usbu =>
        cases v with
        | error e => simp [ocaSignIn, hb]
        | ok uv =>
        cases sub with
        | error e => simp [ocaSignIn, hb]
        | ok usub =>
        cases st with
        | error e => simp [ocaSignIn, hb]
        | ok ust =>
        cases lg with
        | error e => simp [ocaSignIn, hb]
        | ok lgs =>
        cases w with
        | error e => simp [ocaSignIn, hb]
        | ok uw => simp [ocaSignIn, hb] at hne

/-- Witness for C8 (amended): a clear cache plus a store-confirmed uid
yields a set cache; a successful sign-in sets the flag. -/
theorem ocaC8_cache_mutation_witness :
    (IsOCAAuthenticated false ⟨true, true, true, some "user-123", none⟩).2 =
      (false || ocaStoreConfirms ⟨true, true, true, some "user-123", none⟩) ∧
    (ocaSignIn ⟨false, .ok (), .ok (), .ok "", .ok (), .ok (), .ok (), .ok (),
        .ok "url", .ok ()⟩ false).2.2 = true := by
  have h := ocaC8_cache_mutation false ⟨true, true, true, some "user-123", none⟩
    ⟨false, .ok (), .ok (), .ok "", .ok (), .ok (), .ok (), .ok (),
      .ok "url", .ok ()⟩ false
  exact ⟨h.1, h.2.2.2.2.1 rfl rfl⟩

/-! ## Request-id generation (`generateOpcRequestId`, `utils.ts`)

`generateOpcRequestId(taskId, token)` concatenates the hex encodings of
the first 4 bytes of `SHA-256(token)`, the first 4 bytes of
`SHA-256(taskId)`, the Unix-seconds timestamp padded to 8 hex digits,
and a strong 32-bit random value padded to 8 hex digits.  The platform
pieces (`crypto.subtle.digest("SHA-256", ...)` over the UTF-8 encoding
of the string, `toString(16)`, `padStart`) are embedded below; the
timestamp and the random draw are parameters. -/

def w32 : Nat := 4294967296

/-- 32-bit right rotation. -/
def rotr32 (n x : Nat) : Nat := ((x >>> n) ||| (x <<< (32 - n))) % w32

/-- 32-bit complement (of a value below `2^32`). -/
def not32 (x : Nat) : Nat := x ^^^ 4294967295

def bigSigma0 (x : Nat) : Nat := rotr32 2 x ^^^ rotr32 13 x ^^^ rotr32 22 x

def bigSigma1 (x : Nat) : Nat := rotr32 6 x ^^^ rotr32 11 x ^^^ rotr32 25 x

def smallSigma0 (x : Nat) : Nat := rotr32 7 x ^^^ rotr32 18 x ^^^ (x >>> 3)

def smallSigma1 (x : Nat) : Nat := rotr32 17 x ^^^ rotr32 19 x ^^^ (x >>> 10)

def ch32 (e f g : Nat) : Nat := (e &&& f) ^^^ (not32 e &&& g)

def maj32 (a b c : Nat) : Nat := (a &&& b) ^^^ (a &&& c) ^^^ (b &&& c)

/-- The SHA-256 round constants (FIPS 180-4). -/
def sha256K : List Nat :=
  [1116352408, 1899447441, 3049323471, 3921009573,
   961987163, 1508970993, 2453635748, 2870763221,
   3624381080, 310598401, 607225278, 1426881987,
   1925078388, 2162078206, 2614888103, 3248222580,
   3835390401, 4022224774, 264347078, 604807628,
   770255983, 1249150122, 1555081692, 1996064986,
   2554220882, 2821834349, 2952996808, 3210313671,
   3336571891, 3584528711, 113926993, 338241895,
   666307205, 773529912, 1294757372, 1396182291,
   1695183700, 1986661051, 2177026350, 2456956037,
   2730485921, 2820302411, 3259730800, 3345764771,
   3516065817, 3600352804, 4094571909, 275423344,
   430227734, 506948616, 659060556, 883997877,
   958139571, 1322822218, 1537002063, 1747873779,
   1955562222, 2024104815, 2227730452, 2361852424,
   2428436474, 2756734187, 3204031479, 3329325298]

structure Sha256State where
  a : Nat
  b : Nat
  c : Nat
  d : Nat
  e : Nat
  f : Nat
  g : Nat
  h : Nat

/-- The SHA-256 initial hash value (FIPS 180-4). -/
def sha256H0 : Sha256State :=
  ⟨1779033703, 3144134277, 1013904242, 2773480762,
   1359893119, 2600822924, 528734635, 1541459225⟩

/-- The 64-bit big-endian byte encoding of the message bit length. -/
def lenBytes (n : Nat) : List Nat :=
  [n / 2 ^ 56 % 256, n / 2 ^ 48 % 256, n / 2 ^ 40 % 256, n / 2 ^ 32 % 256,
   n / 2 ^ 24 % 256, n / 2 ^ 16 % 256, n / 2 ^ 8 % 256, n % 256]

/-- SHA-256 message padding: `0x80`, zeros to 56 mod 64, then the bit
length. -/
def sha256Pad (msg : List Nat) : List Nat :=
  msg ++ 128 :: List.replicate ((119 - msg.length % 64) % 64) 0 ++
    lenBytes (8 * msg.length)

/-- Big-endian 32-bit words from a byte list. -/
def bytesToWords : List Nat → List Nat
  | b0 :: b1 :: b2 :: b3 :: rest =>
    (((b0 * 256 + b1) * 256 + b2) * 256 + b3) :: bytesToWords rest
  | _ => []

/-- Extends the 16-word block schedule by `fuel` further words. -/
def extendSchedule (fuel : Nat) (w : List Nat) : List Nat :=
  match fuel with
  | 0 => w
  | f + 1 =>
    let n := w.length
    let nw := (smallSigma1 (w.getD (n - 2) 0) + w.getD (n - 7) 0 +
               smallSigma0 (w.getD (n - 15) 0) + w.getD (n - 16) 0) % w32
    extendSchedule f (w ++ [nw])

/-- One SHA-256 compression round on the working variables. -/
def sha256Round (st : Sha256State) (kw : Nat × Nat) : Sha256State :=
  let t1 := (st.h + bigSigma1 st.e + ch32 st.e st.f st.g + kw.1 + kw.2) % w32
  let t2 := (bigSigma0 st.a + maj32 st.a st.b st.c) % w32
  ⟨(t1 + t2) % w32, st.a, st.b, st.c, (st.d + t1) % w32, st.e, st.f, st.g⟩

/-- Compresses one 64-byte block into the running hash state. -/
def sha256Block (st : Sha256State) (block : List Nat) : Sha256State :=
  let ws := extendSchedule 48 (bytesToWords block)
  let r := (sha256K.zip ws).foldl sha256Round st
  ⟨(st.a + r.a) % w32, (st.b + r.b) % w32, (st.c + r.c) % w32, (st.d + r.d) % w32,
   (st.e + r.e) % w32, (st.f + r.f) % w32, (st.g + r.g) % w32, (st.h + r.h) % w32⟩

/-- Splits a byte list into 64-byte chunks. -/
def chunks64 (l : List Nat) : List (List Nat) :=
  if h : l = [] then []
  else l.take 64 :: chunks64 (l.drop 64)
termination_by l.length
decreasing_by
  simp only [List.length_drop]
  have hp : 0 < l.length := List.length_pos.mpr h
  omega

/-- The big-endian bytes of a 32-bit word. -/
def wordBytes (x : Nat) : List Nat :=
  [x / 2 ^ 24 % 256, x / 2 ^ 16 % 256, x / 2 ^ 8 % 256, x % 256]

/-- SHA-256 of a byte message, as its 32-byte digest (models the
platform `crypto.subtle.digest("SHA-256", data)`). -/
def sha256Bytes (msg : List Nat) : List Nat :=
  let fin := (chunks64 (sha256Pad msg)).foldl sha256Block sha256H0
  wordBytes fin.a ++ wordBytes fin.b ++ wordBytes fin.c ++ wordBytes fin.d ++
    wordBytes fin.e ++ wordBytes fin.f ++ wordBytes fin.g ++ wordBytes fin.h

/-- UTF-8 encoding of one unicode scalar value. -/
def utf8EncodeChar (c : Nat) : List Nat :=
  if c < 128 then [c]
  else if c < 2048 then [192 + c / 64, 128 + c % 64]
  else if c < 65536 then [224 + c / 4096, 128 + c / 64 % 64, 128 + c % 64]
  else [240 + c / 262144, 128 + c / 4096 % 64, 128 + c / 64 % 64, 128 + c % 64]

/-- UTF-8 encoding of a string (models the platform `TextEncoder`). -/
def utf8Encode (s : String) : List Nat :=
  s.data.foldr (fun c acc => utf8EncodeChar c.toNat ++ acc) []

/-- The hex digits of `n`, lowercase, no leading zeros (models
`n.toString(16)`). -/
def natToHexDigits (n : Nat) : List Char :=
  if _h : n < 16 then [Nat.digitChar n]
  else natToHexDigits (n / 16) ++ [Nat.digitChar (n % 16)]

def toHex (n : Nat) : String := ⟨natToHexDigits n⟩

/-- `s.padStart(w, "0")`: left-pads with zeros up to width `w` (never
truncates). -/
def padStartZeros (s : String) (w : Nat) : String :=
  ⟨List.replicate (w - s.length) '0' ++ s.data⟩

/-- `b.toString(16).padStart(2, "0")`. -/
def byteToHex2 (b : Nat) : String := padStartZeros (toHex b) 2

/-- Hex encoding of a byte list. -/
def bytesToHex : List Nat → String
  | [] => ""
  | b :: rest => byteToHex2 b ++ bytesToHex rest

/-- The inner `hash8` of `generateOpcRequestId`: the hex encoding of the
first 4 bytes of the SHA-256 digest of the UTF-8 encoding of `str`. -/
def hash8 (str : String) : String :=
  bytesToHex ((sha256Bytes (utf8Encode str)).take 4)

/-- `n.toString(16).padStart(8, "0")`. -/
def toHexPad8 (n : Nat) : String := padStartZeros (toHex n) 8

/-- `generateOpcRequestId(taskId, token)`: `tokenHex + taskHex +
timestampHex + randomHex8()`, with the Unix-seconds timestamp and the
32-bit random draw (`crypto.getRandomValues` into a `Uint32Array`)
passed as parameters. -/
def generateOpcRequestId (taskId token : String) (timestamp rand : Nat) : String :=
  hash8 token ++ hash8 taskId ++ toHexPad8 timestamp ++ toHexPad8 rand

theorem wordBytes_lt (x b : Nat) (hb : b ∈ wordBytes x) : b < 256 := by
  simp only [wordBytes, List.mem_cons, List.not_mem_nil, or_false] at hb
  rcases hb with rfl | rfl | rfl | rfl <;> exact Nat.mod_lt _ (by omega)

theorem sha256Bytes_lt (m : List Nat) : ∀ b ∈ sha256Bytes m, b < 256 := by
  intro b hb
  simp only [sha256Bytes, List.mem_append] at hb
  rcases hb with ((((((hb | hb) | hb) | hb) | hb) | hb) | hb) | hb <;>
    exact wordBytes_lt _ b hb

theorem sha256Bytes_length (m : List Nat) : (sha256Bytes m).length = 32 := by
  simp [sha256Bytes, wordBytes]

theorem natToHexDigits_length_le (k n : Nat) (h : n < 16 ^ (k + 1)) :
    (natToHexDigits n).length ≤ k + 1 := by
  induction k generalizing n with
  | zero =>
    rw [natToHexDigits, dif_pos (by simpa using h)]
    simp
  | succ k ih =>
    rw [natToHexDigits]
    by_cases hn : n < 16
    · rw [dif_pos hn]
      simp
    · rw [dif_neg hn]
      have hdiv : n / 16 < 16 ^ (k + 1) :=
        Nat.div_lt_of_lt_mul (by rw [← pow_succ']; exact h)
      have := ih (n / 16) hdiv
      rw [List.length_append]
      simp only [List.length_cons, List.length_nil]
      omega

theorem padStartZeros_length (s : String) (w : Nat) :
    (padStartZeros s w).length = max w s.length := by
  show (List.replicate (w - s.length) '0' ++ s.data).length = max w s.length
  rw [List.length_append, List.length_replicate]
  have hd : s.data.length = s.length := rfl
  omega

theorem byteToHex2_length (b : Nat) (hb : b < 256) : (byteToHex2 b).length = 2 := by
  rw [byteToHex2, padStartZeros_length]
  have h1 : (toHex b).length ≤ 2 := by
    have h16 : (16 : Nat) ^ (1 + 1) = 256 := by norm_num
    exact natToHexDigits_length_le 1 b (h16 ▸ hb)
  omega

theorem bytesToHex_length (bs : List Nat) (h : ∀ b ∈ bs, b < 256) :
    (bytesToHex bs).length = 2 * bs.length := by
  induction bs with
  | nil => rfl
  | cons b rest ih =>
    show (byteToHex2 b ++ bytesToHex rest).length = 2 * (b :: rest).length
    rw [String.length_append, byteToHex2_length b (h b (List.mem_cons_self b rest)),
      ih fun x hx => h x (List.mem_cons_of_mem b hx), List.length_cons]
    omega

theorem hash8_length (str : String) : (hash8 str).length = 8 := by
  rw [hash8, bytesToHex_length _ fun b hb =>
    sha256Bytes_lt (utf8Encode str) b (List.take_subset 4 _ hb)]
  rw [List.length_take, sha256Bytes_length]
  decide

theorem toHexPad8_length (n : Nat) (h : n < 4294967296) : (toHexPad8 n).length = 8 := by
  rw [toHexPad8, padStartZeros_length]
  have h1 : (toHex n).length ≤ 8 := by
    have h16 : (16 : Nat) ^ (7 + 1) = 4294967296 := by norm_num
    exact natToHexDigits_length_le 7 n (h16 ▸ h)
  omega

/-- Numeric value of one lowercase hex digit. -/
def charHexVal (c : Char) : Nat :=
  if c = '0' then 0 else if c = '1' then 1 else if c = '2' then 2
  else if c = '3' then 3 else if c = '4' then 4 else if c = '5' then 5
  else if c = '6' then 6 else if c = '7' then 7 else if c = '8' then 8
  else if c = '9' then 9 else if c = 'a' then 10 else if c = 'b' then 11
  else if c = 'c' then 12 else if c = 'd' then 13 else if c = 'e' then 14
  else 15

/-- Numeric value of a big-endian hex digit list. -/
def hexVal (l : List Char) : Nat :=
  l.foldl (fun acc c => 16 * acc + charHexVal c) 0

theorem charHexVal_digitChar : ∀ d, d < 16 → charHexVal (Nat.digitChar d) = d := by
  decide

theorem hexVal_natToHexDigits (n : Nat) : hexVal (natToHexDigits n) = n := by
  induction n using Nat.strong_induction_on with
  | _ n ih =>
    rw [natToHexDigits]
    by_cases h : n < 16
    · rw [dif_pos h]
      show 16 * 0 + charHexVal (Nat.digitChar n) = n
      rw [charHexVal_digitChar n h]
      omega
    · rw [dif_neg h]
      have h1 : hexVal (natToHexDigits (n / 16) ++ [Nat.digitChar (n % 16)]) =
          16 * hexVal (natToHexDigits (n / 16)) + charHexVal (Nat.digitChar (n % 16)) := by
        simp [hexVal, List.foldl_append]
      rw [h1, ih (n / 16) (Nat.div_lt_self (by omega) (by omega)),
        charHexVal_digitChar _ (Nat.mod_lt _ (by omega))]
      omega

theorem hexVal_replicate_zero (k : Nat) (l : List Char) :
    hexVal (List.replicate k '0' ++ l) = hexVal l := by
  induction k with
  | zero => rfl
  | succ k ih =>
    rw [List.replicate_succ, List.cons_append]
    show (List.replicate k '0' ++ l).foldl
      (fun acc c => 16 * acc + charHexVal c) (16 * 0 + charHexVal '0') = hexVal l
    have hz : 16 * 0 + charHexVal '0' = 0 := rfl
    rw [hz]
    exact ih

theorem hexVal_toHexPad8 (n : Nat) : hexVal (toHexPad8 n).data = n := by
  show hexVal (List.replicate (8 - (toHex n).length) '0' ++ natToHexDigits n) = n
  rw [hexVal_replicate_zero]
  exact hexVal_natToHexDigits n

theorem toHexPad8_inj (m n : Nat) (h : toHexPad8 m = toHexPad8 n) : m = n := by
  have h1 := congrArg (fun s => hexVal s.data) h
  simpa [hexVal_toHexPad8] using h1

/-- C9: the generated request id is `hex(sha256(credential)[0..4]) ++
hex(sha256(sessionId)[0..4]) ++ hex8(timestamp) ++ hex8(random)`; it is
exactly 32 hex characters long (the timestamp and random fit 32 bits);
and two calls with the same session id and credential but a different
timestamp or a different random value never produce the same id. -/
theorem ocaC9_requestId (taskId token : String) (t1 t2 r1 r2 : Nat)
    (ht1 : t1 < 4294967296) (ht2 : t2 < 4294967296)
    (hr1 : r1 < 4294967296) (hr2 : r2 < 4294967296) :
    generateOpcRequestId taskId token t1 r1 =
      bytesToHex ((sha256Bytes (utf8Encode token)).take 4) ++
      bytesToHex ((sha256Bytes (utf8Encode taskId)).take 4) ++
      toHexPad8 t1 ++ toHexPad8 r1 ∧
    (generateOpcRequestId taskId token t1 r1).length = 32 ∧
    (t1 ≠ t2 ∨ r1 ≠ r2 →
      generateOpcRequestId taskId token t1 r1 ≠
        generateOpcRequestId taskId token t2 r2) := by
  refine ⟨rfl, ?_, ?_⟩
  · rw [generateOpcRequestId, String.length_append, String.length_append,
      String.length_append, hash8_length, hash8_length,
      toHexPad8_length t1 ht1, toHexPad8_length r1 hr1]
  · intro hne heq
    have hd := congrArg String.data heq
    simp only [generateOpcRequestId, String.data_append, List.append_assoc] at hd
    have h1 := (List.append_inj hd rfl).2
    have h2 := (List.append_inj h1 rfl).2
    have hTlen : (toHexPad8 t1).data.length = (toHexPad8 t2).data.length := by
      show (toHexPad8 t1).length = (toHexPad8 t2).length
      rw [toHexPad8_length t1 ht1, toHexPad8_length t2 ht2]
    obtain ⟨hT, hR⟩ := List.append_inj h2 hTlen
    have ht : t1 = t2 := by
      have := congrArg hexVal hT
      rwa [hexVal_toHexPad8, hexVal_toHexPad8] at this
    have hr : r1 = r2 := by
      have := congrArg hexVal hR
      rwa [hexVal_toHexPad8, hexVal_toHexPad8] at this
    rcases hne with hne | hne
    · exact hne ht
    · exact hne hr

/-- Witness for C9 at concrete inputs: the id built from session id
`task-1` and credential `tok` at timestamp `1700000000` is 32
characters, and changing the timestamp (or, with it fixed, the random
value) changes the id. -/
theorem ocaC9_requestId_witness :
    (generateOpcRequestId "task-1" "tok" 1700000000 305419896).length = 32 ∧
    generateOpcRequestId "task-1" "tok" 1700000000 305419896 ≠
      generateOpcRequestId "task-1" "tok" 1700000001 305419896 ∧
    generateOpcRequestId "task-1" "tok" 1700000000 305419896 ≠
      generateOpcRequestId "task-1" "tok" 1700000000 305419897 := by
  have h1 := ocaC9_requestId "task-1" "tok" 1700000000 1700000001 305419896 305419896
    (by decide) (by decide) (by decide) (by decide)
  have h2 := ocaC9_requestId "task-1" "tok" 1700000000 1700000000 305419896 305419897
    (by decide) (by decide) (by decide) (by decide)
  exact ⟨h1.2.1, h1.2.2 (Or.inl (by decide)), h2.2.2 (Or.inr (by decide))⟩

end OcaAuth
